import Mathlib

/-!
Verification of the stargazer-probe test gRPC server
(`src/test-server-cpp/src/main.cc`) against its design specification.

The server code is shallowly embedded: each streaming handler becomes a
function from the list of messages that are successfully read before the
stream ends (plus the reason the stream ended, which the handler cannot
observe) to the list of console log events it emits, the response value,
and the returned status.  Machine counters (`int32_t received`) are
modelled as `Nat`; no arithmetic in the program can overflow in any
realizable run.  Protobuf optional message fields become `Option`.
-/

/-- Why the inbound stream stopped delivering messages.  In the C++ code
`reader->Read(&msg)` returns `false` both on a clean client close and on a
transport fault, so the handlers receive no information about the reason;
the embedding threads the reason through as a parameter that the handler
functions never inspect. -/
inductive StreamEnd where
  | clientClose
  | transportFault
deriving DecidableEq, Repr

/-- gRPC status returned by a handler.  The source only ever builds
`grpc::Status::OK`; the `error` constructor exists so that returning `ok`
is a nontrivial statement. -/
inductive GrpcStatus where
  | ok
  | error (code : Nat) (detail : String)
deriving DecidableEq, Repr

/-- `google::protobuf::Empty`, the response type of the unidirectional
endpoints (the empty acknowledgment). -/
structure ProtoEmpty where
deriving DecidableEq, Repr

/-- A 2-d vector of calibration values (`focal_length`, `principal_point`,
`image_size` in the proto schema). -/
structure Vector2 where
  x : Float
  y : Float

/-- Lens distortion coefficients (proto `distortion` sub-message). -/
structure DistortionData where
  k1 : Float
  k2 : Float
  p1 : Float
  p2 : Float
  k3 : Float

/-- Camera intrinsic calibration (proto `intrinsics` sub-message); the
distortion sub-block is optional (`has_distortion`). -/
structure IntrinsicsData where
  focal_length : Vector2
  principal_point : Vector2
  image_size : Vector2
  distortion : Option DistortionData

/-- One image entry of a camera-image batch: raw bytes plus optional
intrinsics (`has_intrinsics`). -/
structure ImageData where
  image_data : List UInt8
  intrinsics : Option IntrinsicsData

/-- `stargazer::CameraImageMessage`: name, timestamp, repeated image
entries (`values`). -/
structure CameraImageMessage where
  name : String
  timestamp : Int
  values : List ImageData

/-- One inertial sample; the handler never inspects sample contents, only
the count, so the carrier is a plain numeric triple-free `Float`. -/
def InertialSample := Float

/-- `stargazer::InertialMessage`: name, timestamp, repeated samples. -/
structure InertialMessage where
  name : String
  timestamp : Int
  values : List InertialSample

/-- `context ? context->peer() : "(null)"` from the top of each handler. -/
def peerString (context : Option String) : String :=
  match context with
  | some p => p
  | none => "(null)"

/-- The data printed by one sampled `[PublishCameraImage]` log line.  The
conditional `<<` chains of the source become `Option` fields: `imageInfo`
is present exactly when the code enters `if (num_images > 0)`. -/
structure CameraImageInfo where
  image_bytes : Nat
  intrinsics : Option IntrinsicsData

/-- Structured form of one sampled camera log line. -/
structure CameraLogLine where
  received : Nat
  name : String
  timestamp : Int
  images : Nat
  imageInfo : Option CameraImageInfo

/-- Builds the sampled log line for `PublishCameraImage` (lines 33-64 of
`main.cc`): always the count, name, timestamp and number of images; the
first image entry's byte count and optional intrinsics only when the
batch is nonempty. -/
def cameraLogLine (received : Nat) (msg : CameraImageMessage) : CameraLogLine :=
  { received := received
    name := msg.name
    timestamp := msg.timestamp
    images := msg.values.length
    imageInfo :=
      match msg.values with
      | [] => none
      | img :: _ => some { image_bytes := img.image_data.length, intrinsics := img.intrinsics } }

/-- Renders the ` distortion={...}` fragment of a camera log line. -/
def renderDistortion (d : DistortionData) : String :=
  " distortion=\x7bk1=" ++ toString d.k1 ++
  ", k2=" ++ toString d.k2 ++
  ", p1=" ++ toString d.p1 ++
  ", p2=" ++ toString d.p2 ++
  ", k3=" ++ toString d.k3 ++ "\x7d"

/-- Renders the ` intrinsics={...}` fragment (with its optional distortion
sub-block) of a camera log line. -/
def renderIntrinsics (intr : IntrinsicsData) : String :=
  " intrinsics=\x7bfx=" ++ toString intr.focal_length.x ++
  ", fy=" ++ toString intr.focal_length.y ++
  ", cx=" ++ toString intr.principal_point.x ++
  ", cy=" ++ toString intr.principal_point.y ++
  ", w=" ++ toString intr.image_size.x ++
  ", h=" ++ toString intr.image_size.y ++ "\x7d" ++
  (match intr.distortion with
   | some d => renderDistortion d
   | none => "")

/-- The mandatory fields of a sampled camera log line, exactly as the
unconditional part of the `<<` chain prints them. -/
def cameraBase (received : Nat) (msg : CameraImageMessage) : String :=
  "[PublishCameraImage] received=" ++ toString received ++
  " name=\x27" ++ msg.name ++ "\x27" ++
  " timestamp=" ++ toString msg.timestamp ++
  " images=" ++ toString msg.values.length

/-- Renders a full sampled camera log line to the string the program
prints. -/
def renderCameraLogLine (l : CameraLogLine) : String :=
  "[PublishCameraImage] received=" ++ toString l.received ++
  " name=\x27" ++ l.name ++ "\x27" ++
  " timestamp=" ++ toString l.timestamp ++
  " images=" ++ toString l.images ++
  (match l.imageInfo with
   | some info =>
      " image_bytes=" ++ toString info.image_bytes ++
      (match info.intrinsics with
       | some intr => renderIntrinsics intr
       | none => "")
   | none => "")

/-- One console line emitted by `PublishCameraImage`. -/
inductive CameraEvent where
  | connected (peer : String)
  | sampled (line : CameraLogLine)
  | streamEnded (total : Nat)

/-- The read loop of `PublishCameraImage` (lines 25-66): for each
successfully read message the counter is incremented, and a sampled log
line is emitted when `received % 30 == 1`.  Returns the emitted events and
the final value of `received`. -/
def cameraLoop (received : Nat) : List CameraImageMessage → List CameraEvent × Nat
  | [] => ([], received)
  | msg :: rest =>
    let r := received + 1
    let res := cameraLoop r rest
    ((if r % 30 = 1 then [CameraEvent.sampled (cameraLogLine r msg)] else []) ++ res.1, res.2)

/-- Result of a unidirectional handler invocation: the console events in
emission order, the (empty) response message, and the returned status. -/
structure HandlerResult (E : Type) where
  events : List E
  response : ProtoEmpty
  status : GrpcStatus

/-- `SensorServiceImpl::PublishCameraImage`: logs the peer, runs the read
loop starting from `received = 0` over the messages the stream delivers,
then logs the final summary and returns `Status::OK`.  The `endKind`
parameter records why `Read` eventually returned `false`; the body never
inspects it, exactly as the C++ code cannot. -/
def PublishCameraImage (context : Option String) (msgs : List CameraImageMessage)
    (endKind : StreamEnd) : HandlerResult CameraEvent :=
  let res := cameraLoop 0 msgs
  { events := CameraEvent.connected (peerString context) ::
      res.1 ++ [CameraEvent.streamEnded res.2]
    response := {}
    status := GrpcStatus.ok }

/-- Structured form of one sampled inertial log line (line 85-89). -/
structure InertialLogLine where
  received : Nat
  name : String
  timestamp : Int
  samples : Nat

/-- Builds the sampled log line for `PublishInertial`. -/
def inertialLogLine (received : Nat) (msg : InertialMessage) : InertialLogLine :=
  { received := received
    name := msg.name
    timestamp := msg.timestamp
    samples := msg.values.length }

/-- One console line emitted by `PublishInertial`. -/
inductive InertialEvent where
  | connected (peer : String)
  | sampled (line : InertialLogLine)
  | streamEnded (total : Nat)

/-- The read loop of `PublishInertial` (lines 81-91), sampling interval
100. -/
def inertialLoop (received : Nat) : List InertialMessage → List InertialEvent × Nat
  | [] => ([], received)
  | msg :: rest =>
    let r := received + 1
    let res := inertialLoop r rest
    ((if r % 100 = 1 then [InertialEvent.sampled (inertialLogLine r msg)] else []) ++ res.1, res.2)

/-- `SensorServiceImpl::PublishInertial` (lines 72-95). -/
def PublishInertial (context : Option String) (msgs : List InertialMessage)
    (endKind : StreamEnd) : HandlerResult InertialEvent :=
  let res := inertialLoop 0 msgs
  { events := InertialEvent.connected (peerString context) ::
      res.1 ++ [InertialEvent.streamEnded res.2]
    response := {}
    status := GrpcStatus.ok }

/-- The scan of `GetArg` (lines 99-103 of `main.cc`) over the arguments
after the program name: a pair `argv[i], argv[i+1]` is inspected for each
`1 <= i <= argc - 2`; on the first index whose argument equals the key the
following argument is returned, otherwise the fallback. -/
def GetArgFrom (key fallback : String) : List String → String
  | a :: b :: rest => if a == key then b else GetArgFrom key fallback (b :: rest)
  | _ => fallback

/-- `GetArg(argc, argv, key, fallback)`: `argv` is the full argument
vector including the program name at index 0, which the loop skips. -/
def GetArg (argv : List String) (key fallback : String) : String :=
  GetArgFrom key fallback argv.tail

/-- Outcome of `main` after the transport layer has answered the
`BuildAndStart` call: either the fatal path (error-stream line, exit
status 1) or the serving path (stdout line, then blocking in
`server->Wait()` on the given address). -/
inductive MainOutcome where
  | fail (errLine : String) (exitCode : Nat)
  | serve (outLine : String) (address : String)
deriving DecidableEq, Repr

/-- `main` (lines 109-130): resolves host and port from the arguments,
builds the listen address, and branches on whether `BuildAndStart`
produced a server (`buildOk`). -/
def mainRun (argv : List String) (buildOk : Bool) : MainOutcome :=
  let host := GetArg argv "--host" "0.0.0.0"
  let port := GetArg argv "--port" "50051"
  let address := host ++ ":" ++ port
  if buildOk then
    MainOutcome.serve ("Stargazer Probe test gRPC server listening on " ++ address) address
  else
    MainOutcome.fail ("Failed to start server on " ++ address) 1

/-- Modelled from the spec: the camera sub-record a unified sensor packet
optionally carries ("image bytes plus flattened intrinsic fields", §3);
the `StreamData` handler source is not under `src/`. -/
structure PacketCameraRecord where
  image_data : List UInt8
  fx : Float
  fy : Float
  cx : Float
  cy : Float

/-- Modelled from the spec: one unified packet of the bidirectional
`StreamData` endpoint — "a device identifier, a timestamp, and an
optional camera sub-record" (§3). -/
structure SensorPacket where
  device_id : String
  timestamp : Int
  camera : Option PacketCameraRecord

/-- Modelled from the spec: the response of the bidirectional endpoint —
"a success flag, the current received-count, and a fixed status string"
(§3, §4.2). -/
structure StreamDataResponse where
  success : Bool
  received_packets : Nat
  message : String
deriving DecidableEq, Repr

/-- Modelled from the spec: the observable per-session actions of the
`StreamData` handler, in program order. -/
inductive StreamDataEvent where
  | readPkt (count : Nat) (p : SensorPacket)
  | sampledLog (count : Nat) (p : SensorPacket)
  | wroteResp (r : StreamDataResponse)
  | streamEnded (total : Nat)

/-- Modelled from the spec: the `StreamData` read loop (§4.1, §4.2, §6):
read a packet, increment the count, sample a log line at interval 30
(`count % 30 == 1`), then synchronously write one response
`{success = true, received_packets = count, message = "ok"}` before the
next read. -/
def streamDataLoop (count : Nat) : List SensorPacket → List StreamDataEvent × Nat
  | [] => ([], count)
  | p :: rest =>
    let c := count + 1
    let res := streamDataLoop c rest
    (StreamDataEvent.readPkt c p ::
      ((if c % 30 = 1 then [StreamDataEvent.sampledLog c p] else []) ++
        (StreamDataEvent.wroteResp { success := true, received_packets := c, message := "ok" } ::
          res.1)),
     res.2)

/-- Modelled from the spec: the `StreamData` handler — consume the
packets the stream delivers starting from count 0, report the final
count, and return a success status unconditionally; the end reason is
never inspected (§4.1, §7). -/
def StreamData (pkts : List SensorPacket) (endKind : StreamEnd) :
    List StreamDataEvent × GrpcStatus :=
  let res := streamDataLoop 0 pkts
  (res.1 ++ [StreamDataEvent.streamEnded res.2], GrpcStatus.ok)

/-- The responses written during a `StreamData` session, in order. -/
def respTrace (evs : List StreamDataEvent) : List StreamDataResponse :=
  evs.filterMap fun ev =>
    match ev with
    | StreamDataEvent.wroteResp r => some r
    | _ => none

/-- A read or write action, tagged with the count it concerns; used to
state the strict read/response alternation of `StreamData`. -/
inductive RWAction where
  | rd (n : Nat)
  | wr (n : Nat)
deriving DecidableEq, Repr

/-- Projects a `StreamData` event list onto its reads and response
writes, keeping order. -/
def rwTrace (evs : List StreamDataEvent) : List RWAction :=
  evs.filterMap fun ev =>
    match ev with
    | StreamDataEvent.readPkt c _ => some (RWAction.rd c)
    | StreamDataEvent.wroteResp r => some (RWAction.wr r.received_packets)
    | _ => none

/-- Recognizes a sampled camera log line carrying `received = n`. -/
def isCameraSampledWith (n : Nat) : CameraEvent → Bool
  | CameraEvent.sampled l => l.received == n
  | _ => false

/-- Recognizes any sampled camera log line. -/
def isCameraSampled : CameraEvent → Bool
  | CameraEvent.sampled _ => true
  | _ => false

/-- Recognizes the final-summary camera event. -/
def isCameraEnded : CameraEvent → Bool
  | CameraEvent.streamEnded _ => true
  | _ => false

/-- Recognizes a sampled inertial log line carrying `received = n`. -/
def isInertialSampledWith (n : Nat) : InertialEvent → Bool
  | InertialEvent.sampled l => l.received == n
  | _ => false

/-- Recognizes any sampled inertial log line. -/
def isInertialSampled : InertialEvent → Bool
  | InertialEvent.sampled _ => true
  | _ => false

/-- Recognizes the final-summary inertial event. -/
def isInertialEnded : InertialEvent → Bool
  | InertialEvent.streamEnded _ => true
  | _ => false

theorem cameraLoop_total (msgs : List CameraImageMessage) :
    ∀ r, (cameraLoop r msgs).2 = r + msgs.length := by
  induction msgs with
  | nil => intro r; simp [cameraLoop]
  | cons m rest ih =>
    intro r
    simp only [cameraLoop, ih, List.length_cons]
    omega

theorem inertialLoop_total (msgs : List InertialMessage) :
    ∀ r, (inertialLoop r msgs).2 = r + msgs.length := by
  induction msgs with
  | nil => intro r; simp [inertialLoop]
  | cons m rest ih =>
    intro r
    simp only [inertialLoop, ih, List.length_cons]
    omega

theorem cameraLoop_countP (msgs : List CameraImageMessage) :
    ∀ r n, ((cameraLoop r msgs).1.countP (isCameraSampledWith n)) =
      if r < n ∧ n ≤ r + msgs.length ∧ n % 30 = 1 then 1 else 0 := by
  induction msgs with
  | nil =>
    intro r n
    have h : ¬(r < n ∧ n ≤ r ∧ n % 30 = 1) := by omega
    simp [cameraLoop, h]
  | cons m rest ih =>
    intro r n
    have hsingle : (List.countP (isCameraSampledWith n)
        (if (r + 1) % 30 = 1 then [CameraEvent.sampled (cameraLogLine (r + 1) m)] else [])) =
        if (r + 1) % 30 = 1 ∧ r + 1 = n then 1 else 0 := by
      by_cases h30 : (r + 1) % 30 = 1
      · by_cases hn : r + 1 = n
        · subst hn
          simp [h30, List.countP_cons, isCameraSampledWith, cameraLogLine]
        · simp [h30, hn, List.countP_cons, isCameraSampledWith, cameraLogLine]
      · simp [h30]
    simp only [cameraLoop, List.countP_append, hsingle, ih, List.length_cons]
    split_ifs <;> omega

theorem inertialLoop_countP (msgs : List InertialMessage) :
    ∀ r n, ((inertialLoop r msgs).1.countP (isInertialSampledWith n)) =
      if r < n ∧ n ≤ r + msgs.length ∧ n % 100 = 1 then 1 else 0 := by
  induction msgs with
  | nil =>
    intro r n
    have h : ¬(r < n ∧ n ≤ r ∧ n % 100 = 1) := by omega
    simp [inertialLoop, h]
  | cons m rest ih =>
    intro r n
    have hsingle : (List.countP (isInertialSampledWith n)
        (if (r + 1) % 100 = 1 then [InertialEvent.sampled (inertialLogLine (r + 1) m)] else [])) =
        if (r + 1) % 100 = 1 ∧ r + 1 = n then 1 else 0 := by
      by_cases h100 : (r + 1) % 100 = 1
      · by_cases hn : r + 1 = n
        · subst hn
          simp [h100, List.countP_cons, isInertialSampledWith, inertialLogLine]
        · simp [h100, hn, List.countP_cons, isInertialSampledWith, inertialLogLine]
      · simp [h100]
    simp only [inertialLoop, List.countP_append, hsingle, ih, List.length_cons]
    split_ifs <;> omega

theorem cameraLoop_filter_ended (msgs : List CameraImageMessage) :
    ∀ r, (cameraLoop r msgs).1.filter isCameraEnded = [] := by
  induction msgs with
  | nil => intro r; simp [cameraLoop]
  | cons m rest ih =>
    intro r
    by_cases h30 : (r + 1) % 30 = 1 <;>
      simp [cameraLoop, List.filter_append, ih, h30, isCameraEnded]

theorem inertialLoop_filter_ended (msgs : List InertialMessage) :
    ∀ r, (inertialLoop r msgs).1.filter isInertialEnded = [] := by
  induction msgs with
  | nil => intro r; simp [inertialLoop]
  | cons m rest ih =>
    intro r
    by_cases h100 : (r + 1) % 100 = 1 <;>
      simp [inertialLoop, List.filter_append, ih, h100, isInertialEnded]

theorem camera_events_shape (ctx : Option String) (msgs : List CameraImageMessage)
    (e : StreamEnd) : (PublishCameraImage ctx msgs e).events =
      CameraEvent.connected (peerString ctx) ::
        (cameraLoop 0 msgs).1 ++ [CameraEvent.streamEnded msgs.length] := by
  simp [PublishCameraImage, cameraLoop_total msgs 0]

theorem inertial_events_shape (ctx : Option String) (msgs : List InertialMessage)
    (e : StreamEnd) : (PublishInertial ctx msgs e).events =
      InertialEvent.connected (peerString ctx) ::
        (inertialLoop 0 msgs).1 ++ [InertialEvent.streamEnded msgs.length] := by
  simp [PublishInertial, inertialLoop_total msgs 0]

theorem received_count_filter_camera (ctx : Option String) (msgs : List CameraImageMessage)
    (e : StreamEnd) : (PublishCameraImage ctx msgs e).events.filter isCameraEnded =
      [CameraEvent.streamEnded msgs.length] := by
  rw [camera_events_shape ctx msgs e]
  simp [List.filter_append, cameraLoop_filter_ended msgs 0, isCameraEnded]

theorem received_count_filter_inertial (ctx : Option String) (msgs : List InertialMessage)
    (e : StreamEnd) : (PublishInertial ctx msgs e).events.filter isInertialEnded =
      [InertialEvent.streamEnded msgs.length] := by
  rw [inertial_events_shape ctx msgs e]
  simp [List.filter_append, inertialLoop_filter_ended msgs 0, isInertialEnded]

/-- C1: for every stream handled by `PublishCameraImage` or
`PublishInertial`, a sampled log line carrying `received = n` is emitted
(exactly once) if and only if some message brings the incremented count
to `n` and `n % K = 1`, with `K = 30` for the camera endpoint and
`K = 100` for the inertial endpoint; in particular the first message of
every nonempty stream is always logged. -/
theorem sampled_iff_count_mod_interval :
    (∀ ctx msgs e n, ((PublishCameraImage ctx msgs e).events.countP (isCameraSampledWith n)) =
        if 0 < n ∧ n ≤ msgs.length ∧ n % 30 = 1 then 1 else 0)
    ∧ (∀ ctx msgs e n, ((PublishInertial ctx msgs e).events.countP (isInertialSampledWith n)) =
        if 0 < n ∧ n ≤ msgs.length ∧ n % 100 = 1 then 1 else 0)
    ∧ (∀ ctx m rest e,
        ((PublishCameraImage ctx (m :: rest) e).events.countP (isCameraSampledWith 1)) = 1)
    ∧ (∀ ctx m rest e,
        ((PublishInertial ctx (m :: rest) e).events.countP (isInertialSampledWith 1)) = 1) := by
  have hc : ∀ ctx msgs e n,
      ((PublishCameraImage ctx msgs e).events.countP (isCameraSampledWith n)) =
        if 0 < n ∧ n ≤ msgs.length ∧ n % 30 = 1 then 1 else 0 := by
    intro ctx msgs e n
    have h := cameraLoop_countP msgs 0 n
    simp only [Nat.zero_add] at h
    simp [PublishCameraImage, List.countP_cons, List.countP_append,
      isCameraSampledWith, h]
  have hi : ∀ ctx msgs e n,
      ((PublishInertial ctx msgs e).events.countP (isInertialSampledWith n)) =
        if 0 < n ∧ n ≤ msgs.length ∧ n % 100 = 1 then 1 else 0 := by
    intro ctx msgs e n
    have h := inertialLoop_countP msgs 0 n
    simp only [Nat.zero_add] at h
    simp [PublishInertial, List.countP_cons, List.countP_append,
      isInertialSampledWith, h]
  refine ⟨hc, hi, ?_, ?_⟩
  · intro ctx m rest e
    have h := hc ctx (m :: rest) e 1
    simp only [List.length_cons] at h
    rw [h, if_pos]
    exact ⟨Nat.zero_lt_one, Nat.succ_le_succ (Nat.zero_le _), by decide⟩
  · intro ctx m rest e
    have h := hi ctx (m :: rest) e 1
    simp only [List.length_cons] at h
    rw [h, if_pos]
    exact ⟨Nat.zero_lt_one, Nat.succ_le_succ (Nat.zero_le _), by decide⟩

/-- C2: the per-session received count starts at 0 (the handlers call
their read loop with 0), the loop adds exactly 1 per successfully read
message with no resets (final count equals start plus number of
messages), and the final summary event reports exactly the number of
successful reads. -/
theorem received_count_invariant :
    (∀ r msgs, (cameraLoop r msgs).2 = r + msgs.length)
    ∧ (∀ r msgs, (inertialLoop r msgs).2 = r + msgs.length)
    ∧ (∀ ctx msgs e, (PublishCameraImage ctx msgs e).events =
        CameraEvent.connected (peerString ctx) ::
          (cameraLoop 0 msgs).1 ++ [CameraEvent.streamEnded msgs.length])
    ∧ (∀ ctx msgs e, (PublishInertial ctx msgs e).events =
        InertialEvent.connected (peerString ctx) ::
          (inertialLoop 0 msgs).1 ++ [InertialEvent.streamEnded msgs.length])
    ∧ (∀ ctx msgs e, (PublishCameraImage ctx msgs e).events.filter isCameraEnded =
        [CameraEvent.streamEnded msgs.length])
    ∧ (∀ ctx msgs e, (PublishInertial ctx msgs e).events.filter isInertialEnded =
        [InertialEvent.streamEnded msgs.length]) := by
  have hct : ∀ (r : Nat) msgs, (cameraLoop r msgs).2 = r + msgs.length :=
    fun r msgs => cameraLoop_total msgs r
  have hit : ∀ (r : Nat) msgs, (inertialLoop r msgs).2 = r + msgs.length :=
    fun r msgs => inertialLoop_total msgs r
  exact ⟨hct, hit, fun ctx msgs e => camera_events_shape ctx msgs e,
    fun ctx msgs e => inertial_events_shape ctx msgs e,
    fun ctx msgs e => received_count_filter_camera ctx msgs e,
    fun ctx msgs e => received_count_filter_inertial ctx msgs e⟩

/-- C4: once the inbound stream ends — for any reason — each
unidirectional handler's result is the same whether the end was a clean
client close or a transport fault, the returned status is `ok`
unconditionally, and exactly one final summary event (carrying the total
count) is emitted, as the last event of the session. -/
theorem stream_end_uniform_success :
    (∀ ctx msgs e e', PublishCameraImage ctx msgs e = PublishCameraImage ctx msgs e')
    ∧ (∀ ctx msgs e e', PublishInertial ctx msgs e = PublishInertial ctx msgs e')
    ∧ (∀ ctx msgs e, (PublishCameraImage ctx msgs e).status = GrpcStatus.ok)
    ∧ (∀ ctx msgs e, (PublishInertial ctx msgs e).status = GrpcStatus.ok)
    ∧ (∀ ctx msgs e, ((PublishCameraImage ctx msgs e).events.countP isCameraEnded) = 1)
    ∧ (∀ ctx msgs e, ((PublishInertial ctx msgs e).events.countP isInertialEnded) = 1)
    ∧ (∀ ctx msgs e, (PublishCameraImage ctx msgs e).events.getLast? =
        some (CameraEvent.streamEnded msgs.length))
    ∧ (∀ ctx msgs e, (PublishInertial ctx msgs e).events.getLast? =
        some (InertialEvent.streamEnded msgs.length)) := by
  refine ⟨fun ctx msgs e e' => rfl, fun ctx msgs e e' => rfl,
    fun ctx msgs e => rfl, fun ctx msgs e => rfl, ?_, ?_, ?_, ?_⟩
  · intro ctx msgs e
    have h := congrArg List.length (received_count_filter_camera ctx msgs e)
    simpa [List.countP_eq_length_filter] using h
  · intro ctx msgs e
    have h := congrArg List.length (received_count_filter_inertial ctx msgs e)
    simpa [List.countP_eq_length_filter] using h
  · intro ctx msgs e
    rw [camera_events_shape ctx msgs e, List.getLast?_concat]
  · intro ctx msgs e
    rw [inertial_events_shape ctx msgs e, List.getLast?_concat]

/-- C8: a session in which the client sends 0 messages and closes
immediately emits no sampled log line, exactly one final summary event
reporting a total of 0, and returns the empty acknowledgment with the
success status — for both unidirectional handlers and either end
reason. -/
theorem empty_session_result :
    ∀ ctx e,
      PublishCameraImage ctx [] e =
        { events := [CameraEvent.connected (peerString ctx), CameraEvent.streamEnded 0]
          response := {}
          status := GrpcStatus.ok }
      ∧ PublishInertial ctx [] e =
        { events := [InertialEvent.connected (peerString ctx), InertialEvent.streamEnded 0]
          response := {}
          status := GrpcStatus.ok }
      ∧ ((PublishCameraImage ctx [] e).events.countP isCameraSampled) = 0
      ∧ ((PublishInertial ctx [] e).events.countP isInertialSampled) = 0
      ∧ ((PublishCameraImage ctx [] e).events.countP isCameraEnded) = 1
      ∧ ((PublishInertial ctx [] e).events.countP isInertialEnded) = 1 := by
  intro ctx e
  refine ⟨rfl, rfl, ?_, ?_, ?_, ?_⟩ <;>
    simp [PublishCameraImage, PublishInertial, cameraLoop, inertialLoop,
      List.countP_cons, isCameraSampled, isInertialSampled, isCameraEnded, isInertialEnded]

theorem GetArgFrom_eq_find (key fallback : String) :
    ∀ xs : List String,
      GetArgFrom key fallback xs =
        (((xs.zip xs.tail).find? fun pr => pr.1 == key).map Prod.snd).getD fallback
  | [] => by simp [GetArgFrom]
  | [a] => by simp [GetArgFrom]
  | a :: b :: rest => by
    have ih := GetArgFrom_eq_find key fallback (b :: rest)
    simp only [List.tail_cons] at ih
    by_cases h : (a == key) = true
    · simp only [GetArgFrom, if_pos h, List.tail_cons, List.zip_cons_cons, List.find?, h]
      rfl
    · have hfind : List.find? (fun pr : String × String => pr.1 == key)
          ((a, b) :: (b :: rest).zip rest) =
          List.find? (fun pr => pr.1 == key) ((b :: rest).zip rest) := by
        simp only [List.find?, Bool.not_eq_true] at *
        simp [h]
      simp only [GetArgFrom, if_neg h, List.tail_cons, List.zip_cons_cons, hfind, ih]

/-- C5: `GetArg` scans the arguments after the program name left to
right over adjacent key/value pairs and returns the value following the
first matching key that has a following argument; the fallback is
returned when no such occurrence exists — in particular when the key is
the final argument, as in `--host` last yielding `0.0.0.0`. -/
theorem getArg_first_match :
    (∀ (argv : List String) (key fallback : String),
        GetArg argv key fallback =
          (((argv.tail.zip argv.tail.tail).find? fun pr => pr.1 == key).map Prod.snd).getD
            fallback)
    ∧ (∀ (argv : List String) (key fallback : String),
        ((argv.tail.zip argv.tail.tail).find? fun pr => pr.1 == key) = none →
          GetArg argv key fallback = fallback)
    ∧ GetArg ["test-server", "--host"] "--host" "0.0.0.0" = "0.0.0.0" := by
  refine ⟨?_, ?_, ?_⟩
  · intro argv key fallback
    exact GetArgFrom_eq_find key fallback argv.tail
  · intro argv key fallback h
    rw [GetArg, GetArgFrom_eq_find key fallback argv.tail, h]
    rfl
  · rfl

/-- C5 witness: concrete applications of `getArg_first_match`, including
the no-occurrence hypothesis discharged on `--host` given as the final
argument. -/
theorem getArg_first_match_witness :
    GetArg ["test-server", "--host", "10.0.0.5", "--host", "10.9.9.9"] "--host" "0.0.0.0" =
      "10.0.0.5"
    ∧ GetArg ["test-server", "--host"] "--host" "0.0.0.0" = "0.0.0.0" := by
  constructor
  · rw [getArg_first_match.1 ["test-server", "--host", "10.0.0.5", "--host", "10.9.9.9"]
      "--host" "0.0.0.0"]
    rfl
  · exact getArg_first_match.2.1 ["test-server", "--host"] "--host" "0.0.0.0" rfl

/-- C9: `GetArg` takes whatever argument immediately follows a matching
key as the value, even when that argument is itself an option key: with
arguments `--host --port 1234`, the key `--host` resolves to the string
`"--port"`, while `--port` still resolves to `"1234"`. -/
theorem getArg_value_may_be_key :
    GetArg ["test-server", "--host", "--port", "1234"] "--host" "0.0.0.0" = "--port"
    ∧ GetArg ["test-server", "--host", "--port", "1234"] "--port" "50051" = "1234" := by
  exact ⟨rfl, rfl⟩

/-- C7: at startup, if listener creation fails, `main` logs the failure
line for the resolved address to the error stream and exits with status
1; otherwise it logs the listening line for the bound address and blocks
serving on that address. -/
theorem main_startup_outcome :
    ∀ argv : List String,
      mainRun argv false =
        MainOutcome.fail
          ("Failed to start server on " ++
            (GetArg argv "--host" "0.0.0.0" ++ ":" ++ GetArg argv "--port" "50051")) 1
      ∧ mainRun argv true =
        MainOutcome.serve
          ("Stargazer Probe test gRPC server listening on " ++
            (GetArg argv "--host" "0.0.0.0" ++ ":" ++ GetArg argv "--port" "50051"))
          (GetArg argv "--host" "0.0.0.0" ++ ":" ++ GetArg argv "--port" "50051") := by
  intro argv
  exact ⟨rfl, rfl⟩

/-- C3: in a sampled camera log line, the intrinsics block is present if
and only if the logged image entry (the first of the batch, when one
exists) marks intrinsics present, the distortion sub-block is present if
and only if that entry additionally marks distortion present, and the
formatter is total: every rendered line is the complete mandatory-field
line followed by the (possibly empty) optional part. -/
theorem optional_blocks_iff_present :
    ∀ (n : Nat) (m : CameraImageMessage),
      (((cameraLogLine n m).imageInfo.bind fun info => info.intrinsics).isSome ↔
        (m.values.head?.bind fun img => img.intrinsics).isSome)
      ∧ (((cameraLogLine n m).imageInfo.bind fun info =>
            info.intrinsics.bind fun intr => intr.distortion).isSome ↔
          (m.values.head?.bind fun img =>
            img.intrinsics.bind fun intr => intr.distortion).isSome)
      ∧ (∃ s, renderCameraLogLine (cameraLogLine n m) = cameraBase n m ++ s) := by
  intro n m
  obtain ⟨name, ts, vs⟩ := m
  refine ⟨?_, ?_, ⟨_, rfl⟩⟩ <;> cases vs <;> simp [cameraLogLine]

/-- C10: a sampled camera log line reports the byte count and intrinsics
of only the first image entry — the line built from `img :: rest` is a
function of `img` and the entry count alone, whatever `rest` carries —
and when the batch is empty the line has no image fields at all while
the entry count 0 is still reported. -/
theorem first_entry_only_logged :
    ∀ (n : Nat) (name : String) (ts : Int),
      (∀ (img : ImageData) (rest : List ImageData),
        cameraLogLine n { name := name, timestamp := ts, values := img :: rest } =
          { received := n, name := name, timestamp := ts, images := rest.length + 1,
            imageInfo := some { image_bytes := img.image_data.length,
                                intrinsics := img.intrinsics } })
      ∧ cameraLogLine n { name := name, timestamp := ts, values := [] } =
          { received := n, name := name, timestamp := ts, images := 0, imageInfo := none }
      ∧ renderCameraLogLine (cameraLogLine n { name := name, timestamp := ts, values := [] }) =
          cameraBase n { name := name, timestamp := ts, values := [] } := by
  intro n name ts
  refine ⟨fun img rest => rfl, rfl, ?_⟩
  show cameraBase n { name := name, timestamp := ts, values := [] } ++ "" = _
  exact String.append_empty _

theorem streamDataLoop_respTrace (pkts : List SensorPacket) :
    ∀ c, respTrace (streamDataLoop c pkts).1 =
      (List.range pkts.length).map fun i =>
        { success := true, received_packets := c + i + 1, message := "ok" } := by
  induction pkts with
  | nil => intro c; simp [streamDataLoop, respTrace]
  | cons p rest ih =>
    intro c
    have hsplit : respTrace (streamDataLoop c (p :: rest)).1 =
        { success := true, received_packets := c + 1, message := "ok" } ::
          respTrace (streamDataLoop (c + 1) rest).1 := by
      by_cases h : (c + 1) % 30 = 1 <;>
        simp [streamDataLoop, respTrace, h, List.filterMap_append]
    rw [hsplit, ih (c + 1), List.length_cons, List.range_succ_eq_map, List.map_cons,
      List.map_map]
    have hfun : (fun i => (⟨true, c + 1 + i + 1, "ok"⟩ : StreamDataResponse)) =
        ((fun i => (⟨true, c + i + 1, "ok"⟩ : StreamDataResponse)) ∘ Nat.succ) := by
      funext i
      simp only [Function.comp_apply, StreamDataResponse.mk.injEq, Nat.succ_eq_add_one]
      exact ⟨trivial, by omega, trivial⟩
    rw [hfun]

theorem streamDataLoop_rwTrace (pkts : List SensorPacket) :
    ∀ c, rwTrace (streamDataLoop c pkts).1 =
      (List.range pkts.length).flatMap fun i =>
        [RWAction.rd (c + i + 1), RWAction.wr (c + i + 1)] := by
  induction pkts with
  | nil => intro c; simp [streamDataLoop, rwTrace]
  | cons p rest ih =>
    intro c
    have hsplit : rwTrace (streamDataLoop c (p :: rest)).1 =
        RWAction.rd (c + 1) :: RWAction.wr (c + 1) ::
          rwTrace (streamDataLoop (c + 1) rest).1 := by
      by_cases h : (c + 1) % 30 = 1 <;>
        simp [streamDataLoop, rwTrace, h, List.filterMap_append]
    rw [hsplit, ih (c + 1), List.length_cons, List.range_succ_eq_map, List.flatMap_cons,
      List.flatMap_map]
    have hfun : (fun i => [RWAction.rd (c + 1 + i + 1), RWAction.wr (c + 1 + i + 1)]) =
        ((fun i => [RWAction.rd (c + i + 1), RWAction.wr (c + i + 1)]) ∘ Nat.succ) := by
      funext i
      simp only [Function.comp_apply, List.cons.injEq, RWAction.rd.injEq, RWAction.wr.injEq,
        and_true, Nat.succ_eq_add_one]
      omega
    rw [hfun]
    rfl

/-- C6: the bidirectional `StreamData` endpoint emits, for every inbound
packet N (1-based), exactly one response — written after reading packet
N and before reading packet N + 1 — with `success = true`,
`received_packets = N` and `message = "ok"`; a client sending 5 packets
receives exactly the 5 responses with counts 1, 2, 3, 4, 5 in order. -/
theorem streamdata_one_response_per_packet :
    (∀ pkts e, respTrace (StreamData pkts e).1 =
        (List.range pkts.length).map fun i =>
          { success := true, received_packets := i + 1, message := "ok" })
    ∧ (∀ pkts e, rwTrace (StreamData pkts e).1 =
        (List.range pkts.length).flatMap fun i =>
          [RWAction.rd (i + 1), RWAction.wr (i + 1)])
    ∧ (∀ p1 p2 p3 p4 p5 e, respTrace (StreamData [p1, p2, p3, p4, p5] e).1 =
        [{ success := true, received_packets := 1, message := "ok" },
         { success := true, received_packets := 2, message := "ok" },
         { success := true, received_packets := 3, message := "ok" },
         { success := true, received_packets := 4, message := "ok" },
         { success := true, received_packets := 5, message := "ok" }]) := by
  have hresp : ∀ pkts e, respTrace (StreamData pkts e).1 =
      (List.range pkts.length).map fun i =>
        { success := true, received_packets := i + 1, message := "ok" } := by
    intro pkts e
    have h := streamDataLoop_respTrace pkts 0
    simp only [Nat.zero_add] at h
    simp [StreamData, respTrace, List.filterMap_append] at h ⊢
    exact h
  have hrw : ∀ pkts e, rwTrace (StreamData pkts e).1 =
      (List.range pkts.length).flatMap fun i =>
        [RWAction.rd (i + 1), RWAction.wr (i + 1)] := by
    intro pkts e
    have h := streamDataLoop_rwTrace pkts 0
    simp only [Nat.zero_add] at h
    simp [StreamData, rwTrace, List.filterMap_append] at h ⊢
    exact h
  refine ⟨hresp, hrw, ?_⟩
  intro p1 p2 p3 p4 p5 e
  rw [hresp [p1, p2, p3, p4, p5] e]
  rfl
